import Mathlib

/-!
# woodpecker-buildah: the step dispatcher and its four operations

A shallow embedding of `main.go`. The program is a sequence of calls of an
external executable, so the embedding threads an explicit state through the
Go functions:

* `options` is the Go struct of the same name; the functions receive a pointer
  to it, so it is part of the threaded state (`createManifest` writes to it);
* every `cmd.Run()` appends the command to `State.trace`; its outcome is read
  from `Env.run`, which may depend on the command and on all earlier
  invocations, so every behaviour of the external tool is covered;
* a Go `error` is `Option String`: `none` is `nil`, `some m` is an error whose
  `Error()` text is `m`;
* `log.Println` output and the elapsed-time measurement are not modelled: they
  influence neither the control flow nor the invocations.
-/

namespace Buildah

/-- The constant `buildahPath`. -/
def buildahPath : String := "/usr/bin/buildah"

/-- The struct `options`. -/
structure options where
  Username : String
  Password : String
  Registry : String
  Repository : String
  Tag : String
  Context : String
  ManifestName : String
  Architectures : List String
  Transport : String
  Flags : List String
  LoginArgs : List String
  ManifestArgs : List String
  BuildArgs : List String
  PushArgs : List String
  Steps : List String
  LogLevel : String
  RegistriesConfig : String
  CurrentPath : String
  deriving DecidableEq

/-- The two streams of the parent process a child can inherit. -/
inductive Stream where
  | osStdout
  | osStderr
  deriving DecidableEq

/-- The fields of `exec.Cmd` the program sets: `exec.Command(Path, Args...)`,
then `Stdin` (a buffer holding the given string), `Stdout`, `Stderr`. `Args`
holds the arguments after the program name, as they are handed to
`exec.Command`. -/
structure Cmd where
  Path : String
  Args : List String
  Stdin : Option String
  Stdout : Option Stream
  Stderr : Option Stream
  deriving DecidableEq

/-- A Go `error`: `none` is `nil`. -/
abbrev GoError := Option String

/-- A call of the file system made by `execute` before the step loop. -/
inductive FsCall where
  | mkdirAll (path : String) (perm : Nat)
  | writeFile (path : String) (data : String) (perm : Nat)
  deriving DecidableEq

/-- Everything the program reads from outside the `options` record. -/
structure Env where
  /-- The constant `runtime.GOARCH` of the running binary. -/
  GOARCH : String
  /-- The value of `os.Getenv("CI_COMMIT_SHA")` (empty when unset). -/
  CI_COMMIT_SHA : String
  /-- The outcome of `cmd.Run()`, given the invocations made so far. -/
  run : List Cmd → Cmd → GoError
  /-- The result of `os.UserHomeDir()`. -/
  userHomeDir : Except String String
  /-- The library function `filepath.Join` on two elements. -/
  filepathJoin : String → String → String
  /-- The outcome of `os.MkdirAll path perm`. -/
  mkdirAll : String → Nat → GoError
  /-- The outcome of `os.WriteFile path data perm`. -/
  writeFile : String → String → Nat → GoError

/-- The mutable state: the record behind the `*options` pointer, the external
invocations made so far (oldest first) and the file-system calls made so far. -/
structure State where
  opts : options
  trace : List Cmd
  fs : List FsCall
  deriving DecidableEq

/-- Go's builtin `len` on a string: the number of bytes. -/
def len (s : String) : Nat := s.utf8ByteSize

/-- Whether `sub` occurs in `s` as a contiguous block. -/
def containsChars (s sub : List Char) : Bool :=
  match s with
  | [] => sub.isPrefixOf []
  | c :: t => sub.isPrefixOf (c :: t) || containsChars t sub

/-- The library function `strings.Contains s substr`. Both strings are
sequences of characters here; UTF-8 is self-synchronising, so for well-formed
text this is the same test as the one on bytes. -/
def stringsContains (s substr : String) : Bool :=
  containsChars s.toList substr.toList

/-- Performs `cmd.Run()`: asks the environment for the outcome and records
the invocation. -/
def runCmd (env : Env) (cmd : Cmd) (σ : State) : GoError × State :=
  (env.run σ.trace cmd, { σ with trace := σ.trace ++ [cmd] })

/-- The command `login` builds (lines 148-151). -/
def loginCmd (o : options) : Cmd :=
  { Path := buildahPath
    Args := ["login", "--username", o.Username, "--password-stdin", o.Registry]
    Stdin := some o.Password
    Stdout := some Stream.osStdout
    Stderr := some Stream.osStderr }

/-- The function `login`. -/
def login (env : Env) (σ : State) : GoError × State :=
  if len σ.opts.Username == 0 || len σ.opts.Password == 0 then
    (some "username and password are required", σ)
  else if len σ.opts.Registry == 0 then
    (some "registry is required", σ)
  else
    match runCmd env (loginCmd σ.opts) σ with
    | (some err, σ₁) => (some ("login failed: " ++ err), σ₁)
    | (none, σ₁) => (none, σ₁)

/-- The command `createManifest` builds (lines 164-169), read after line 161
has applied the default of the manifest name. -/
def manifestCmd (o : options) : Cmd :=
  { Path := buildahPath
    Args := ["manifest", "create", o.ManifestName, "--log-level", o.LogLevel]
      ++ o.Flags ++ o.ManifestArgs
    Stdin := none
    Stdout := some Stream.osStdout
    Stderr := some Stream.osStderr }

/-- The function `createManifest`. -/
def createManifest (env : Env) (σ : State) : GoError × State :=
  let σ₀ : State :=
    if len σ.opts.ManifestName == 0 then
      { σ with opts := { σ.opts with ManifestName := env.CI_COMMIT_SHA } }
    else σ
  match runCmd env (manifestCmd σ₀.opts) σ₀ with
  | (some err, σ₁) => (some ("creating manifest failed: " ++ err), σ₁)
  | (none, σ₁) => (none, σ₁)

/-- The argument slice one iteration of the loop of `buildArchs` builds
(lines 185-192), with `path` and `tag` as computed before the loop. -/
def buildArgs (env : Env) (o : options) (path tag arch : String) : List String :=
  let args := ["build", "--manifest", o.ManifestName, "--arch", arch, "--tag", tag,
    "--log-level", o.LogLevel]
  let args := args ++ o.Flags
  let args := args ++ o.BuildArgs
  let args := if !stringsContains env.GOARCH arch then args ++ ["-f"] else args
  args ++ [path]

/-- The command one iteration of the loop of `buildArchs` runs (lines 194-196). -/
def buildCmd (env : Env) (o : options) (path tag arch : String) : Cmd :=
  { Path := buildahPath
    Args := buildArgs env o path tag arch
    Stdin := none
    Stdout := some Stream.osStdout
    Stderr := some Stream.osStderr }

/-- The loop of `buildArchs` over the architectures still to build. -/
def buildLoop (env : Env) (path tag : String) : List String → State → GoError × State
  | [], σ => (none, σ)
  | arch :: rest, σ =>
    match runCmd env (buildCmd env σ.opts path tag arch) σ with
    | (some err, σ₁) => (some ("building arch " ++ arch ++ " failed: " ++ err), σ₁)
    | (none, σ₁) => buildLoop env path tag rest σ₁

/-- The build-context path of line 179. -/
def buildPath (o : options) : String := o.CurrentPath ++ "/" ++ o.Context

/-- The image tag of line 180. -/
def buildTag (o : options) : String := o.Registry ++ "/" ++ o.Repository ++ ":" ++ o.Tag

/-- The function `buildArchs`. -/
def buildArchs (env : Env) (σ : State) : GoError × State :=
  let path := buildPath σ.opts
  let tag := buildTag σ.opts
  buildLoop env path tag σ.opts.Architectures σ

/-- The destination reference of line 207. -/
def pushPath (o : options) : String :=
  o.Transport ++ "://" ++ o.Registry ++ "/" ++ o.Repository ++ ":" ++ o.Tag

/-- The command `push` builds (lines 208-213). -/
def pushCmd (o : options) : Cmd :=
  { Path := buildahPath
    Args := ["manifest", "push", "--all", "--log-level", o.LogLevel, o.ManifestName,
      pushPath o] ++ o.Flags ++ o.PushArgs
    Stdin := none
    Stdout := some Stream.osStdout
    Stderr := some Stream.osStderr }

/-- The function `push`. -/
def push (env : Env) (σ : State) : GoError × State :=
  match runCmd env (pushCmd σ.opts) σ with
  | (some err, σ₁) => (some ("pushing image failed: " ++ err), σ₁)
  | (none, σ₁) => (none, σ₁)

/-- The body of the loop of `execute`: the `switch` on the step name
(lines 111-136). A name matching no case does nothing. -/
def runStep (env : Env) (step : String) (σ : State) : GoError × State :=
  if step = "login" then login env σ
  else if step = "manifest" then createManifest env σ
  else if step = "build" then buildArchs env σ
  else if step = "push" then push env σ
  else (none, σ)

/-- The loop of `execute` over the steps still to run (lines 110-138). -/
def executeSteps (env : Env) : List String → State → GoError × State
  | [], σ => (none, σ)
  | step :: rest, σ =>
    match runStep env step σ with
    | (some err, σ₁) => (some err, σ₁)
    | (none, σ₁) => executeSteps env rest σ₁

/-- The part of `execute` before the loop (lines 94-109): the directory
`<home>/.config/containers` is created and, when `RegistriesConfig` is not
empty, written to `registries.conf` in it. -/
def initWorkspace (env : Env) (σ : State) : GoError × State :=
  match env.userHomeDir with
  | .error err => (some err, σ)
  | .ok userHome =>
    let containersDir := env.filepathJoin userHome ".config/containers"
    let σ₁ := { σ with fs := σ.fs ++ [FsCall.mkdirAll containersDir 0o700] }
    match env.mkdirAll containersDir 0o700 with
    | some err => (some err, σ₁)
    | none =>
      if σ₁.opts.RegistriesConfig ≠ "" then
        let registriesConfPath := env.filepathJoin containersDir "registries.conf"
        let σ₂ := { σ₁ with fs := σ₁.fs ++
          [FsCall.writeFile registriesConfPath σ₁.opts.RegistriesConfig 0o600] }
        match env.writeFile registriesConfPath σ₁.opts.RegistriesConfig 0o600 with
        | some err => (some err, σ₂)
        | none => (none, σ₂)
      else (none, σ₁)

/-- The function `execute`. The `range` expression `opts.Steps` is evaluated
once, before the first iteration. -/
def execute (env : Env) (σ : State) : GoError × State :=
  match initWorkspace env σ with
  | (some err, σ₁) => (some err, σ₁)
  | (none, σ₁) => executeSteps env σ₁.opts.Steps σ₁

/-- The state `main` hands to `execute`: the loaded options, nothing invoked
and nothing written yet. -/
def initial (o : options) : State := { opts := o, trace := [], fs := [] }

/-! ## Sample inputs -/

/-- An environment on an amd64 host in which every call succeeds. -/
def envOk : Env :=
  { GOARCH := "amd64"
    CI_COMMIT_SHA := "abc123"
    run := fun _ _ => none
    userHomeDir := .ok "/root"
    filepathJoin := fun a b => a ++ "/" ++ b
    mkdirAll := fun _ _ => none
    writeFile := fun _ _ _ => none }

/-- As `envOk`, but the external tool fails on every invocation. -/
def envFail : Env := { envOk with run := fun _ _ => some "exit status 125" }

/-- A complete sample configuration with the documented defaults. -/
def optsSample : options :=
  { Username := "user"
    Password := "secret"
    Registry := "reg.io"
    Repository := "org/app"
    Tag := "latest"
    Context := "Dockerfile"
    ManifestName := ""
    Architectures := ["amd64", "arm64"]
    Transport := "docker"
    Flags := []
    LoginArgs := []
    ManifestArgs := []
    BuildArgs := []
    PushArgs := []
    Steps := ["login", "manifest", "build", "push"]
    LogLevel := "info"
    RegistriesConfig := ""
    CurrentPath := "/woodpecker/src" }

/-- A configuration that hands the file flag of the tool through BuildArgs. -/
def optsFile : options := { optsSample with BuildArgs := ["-f", "Containerfile.ci"] }

/-- As `optsSample`, without a password. -/
def optsNoPassword : options := { optsSample with Password := "" }

/-- As `optsSample`, without a registry. -/
def optsNoRegistry : options := { optsSample with Registry := "" }

/-- As `optsSample`, with another password. -/
def optsOtherPassword : options := { optsSample with Password := "hunter2" }

/-- As `optsSample`, with a configured manifest name. -/
def optsNamed : options := { optsSample with ManifestName := "app-manifest" }

/-- As `optsSample`, pushing before logging in. -/
def optsPushLogin : options := { optsSample with Steps := ["push", "login"] }

/-- As `optsSample`, building and pushing without a manifest step. -/
def optsBuildPush : options := { optsSample with Steps := ["build", "push"] }

/-- As `optsSample`, with step names the dispatcher has no case for. -/
def optsUnknown : options := { optsSample with Steps := ["lint", "deploy"] }

/-- As `optsSample`, with known and unknown step names mixed. -/
def optsMixed : options := { optsSample with Steps := ["lint", "push", "deploy", "login"] }

/-- As `envOk`, but creating the manifest fails. -/
def envManifestFails : Env :=
  { envOk with
    run := fun _ c =>
      if c.Args.take 2 = ["manifest", "create"] then some "exit status 125" else none }

/-- As `envOk`, but the build for arm64 fails. -/
def envArmFails : Env :=
  { envOk with
    run := fun _ c => if "arm64" ∈ c.Args then some "exit status 125" else none }

/-! ## The dispatcher as the specification words it

"Executes steps strictly in the order given by the configuration's step list.
For each step name, invokes the matching operation; unknown names are no-ops."
The definitions below list, without running anything, the invocations such a
run consists of when every operation succeeds. They are compared with
`execute` in the theorems. -/

/-- Whether `step` is one of the four names the dispatcher knows. -/
def recognized (step : String) : Bool :=
  step == "login" || step == "manifest" || step == "build" || step == "push"

/-- The state with the step list replaced. -/
def setSteps (steps : List String) (σ : State) : State :=
  { σ with opts := { σ.opts with Steps := steps } }

/-- The configuration after the operation named `step`: only the manifest
step changes it, by the late default of the manifest name. -/
def stepOpts (env : Env) (step : String) (o : options) : options :=
  if step = "manifest" ∧ o.ManifestName = "" then
    { o with ManifestName := env.CI_COMMIT_SHA }
  else o

/-- The invocations of the operation named `step` on configuration `o`, all
succeeding: one for login, manifest and push, one per architecture for build,
none for an unknown name. -/
def stepCmds (env : Env) (step : String) (o : options) : List Cmd :=
  if step = "login" then [loginCmd o]
  else if step = "manifest" then [manifestCmd (stepOpts env step o)]
  else if step = "build" then
    o.Architectures.map (buildCmd env o (buildPath o) (buildTag o))
  else if step = "push" then [pushCmd o]
  else []

/-- The invocations of a whole step list, entry after entry in list order. -/
def expectedTrace (env : Env) : List String → options → List Cmd
  | [], _ => []
  | step :: rest, o => stepCmds env step o ++ expectedTrace env rest (stepOpts env step o)

/-- Whether the command is a build or a manifest-push invocation whose
manifest-name argument is the empty string. -/
def passesEmptyName (c : Cmd) : Prop :=
  (∃ rest, c.Args = "build" :: "--manifest" :: "" :: rest) ∨
  (∃ lvl rest, c.Args = "manifest" :: "push" :: "--all" :: "--log-level" :: lvl :: "" :: rest)

/-! ## Basic facts -/

theorem utf8ByteSize_go_eq_zero (cs : List Char) :
    String.utf8ByteSize.go cs = 0 ↔ cs = [] := by
  cases cs with
  | nil => simp [String.utf8ByteSize.go]
  | cons c t =>
    have h := Char.utf8Size_pos c
    simp [String.utf8ByteSize.go]
    omega

/-- A string has no bytes exactly when it is the empty string. -/
theorem len_eq_zero_iff (s : String) : len s = 0 ↔ s = "" := by
  cases s with
  | mk cs =>
    simp only [len, String.utf8ByteSize, utf8ByteSize_go_eq_zero]
    constructor
    · intro h; subst h; rfl
    · intro h; exact congrArg String.data h

theorem len_empty : len "" = 0 := by decide

/-- The shape every operation gives to the outcome of its command. -/
theorem wrap_eq (p : String) (r : GoError × State) :
    (match r with
      | (some err, σ₁) => (some (p ++ err), σ₁)
      | (none, σ₁) => (none, σ₁)) = (r.1.map (fun err => p ++ err), r.2) := by
  rcases r with ⟨_ | e, σ₁⟩ <;> rfl

theorem login_of_ok (env : Env) (σ : State) (hu : σ.opts.Username ≠ "")
    (hp : σ.opts.Password ≠ "") (hr : σ.opts.Registry ≠ "") :
    login env σ =
      ((env.run σ.trace (loginCmd σ.opts)).map (fun err => "login failed: " ++ err),
        { σ with trace := σ.trace ++ [loginCmd σ.opts] }) := by
  have hu1 : len σ.opts.Username ≠ 0 := fun h => hu ((len_eq_zero_iff _).1 h)
  have hp1 : len σ.opts.Password ≠ 0 := fun h => hp ((len_eq_zero_iff _).1 h)
  have hr1 : len σ.opts.Registry ≠ 0 := fun h => hr ((len_eq_zero_iff _).1 h)
  simp only [login, wrap_eq, runCmd]
  simp [hu1, hp1, hr1]

theorem login_of_empty (env : Env) (σ : State)
    (h : σ.opts.Username = "" ∨ σ.opts.Password = "" ∨ σ.opts.Registry = "") :
    ∃ msg, login env σ = (some msg, σ) := by
  unfold login
  by_cases h1 : (len σ.opts.Username == 0 || len σ.opts.Password == 0) = true
  · exact ⟨_, by rw [if_pos h1]⟩
  · rw [if_neg h1]
    have hr : σ.opts.Registry = "" := by
      rcases h with h | h | h
      · exact absurd (by simp [h, len_empty]) h1
      · exact absurd (by simp [h, len_empty]) h1
      · exact h
    have h2 : (len σ.opts.Registry == 0) = true := by simp [hr, len_empty]
    exact ⟨_, by rw [if_pos h2]⟩

theorem createManifest_eq (env : Env) (σ : State) :
    createManifest env σ =
      let o := if σ.opts.ManifestName = "" then
        { σ.opts with ManifestName := env.CI_COMMIT_SHA } else σ.opts
      ((env.run σ.trace (manifestCmd o)).map (fun err => "creating manifest failed: " ++ err),
        { σ with opts := o, trace := σ.trace ++ [manifestCmd o] }) := by
  simp only [createManifest, wrap_eq, runCmd]
  by_cases h : σ.opts.ManifestName = ""
  · have h0 : (len σ.opts.ManifestName == 0) = true := by
      simp [(len_eq_zero_iff _).2 h]
    simp only [h0, if_true, if_pos h]
  · have h0 : ¬ (len σ.opts.ManifestName == 0) = true := by
      simpa using fun h1 => h ((len_eq_zero_iff _).1 h1)
    simp only [h0, if_neg h, Bool.false_eq_true, if_false]

theorem push_eq (env : Env) (σ : State) :
    push env σ =
      ((env.run σ.trace (pushCmd σ.opts)).map (fun err => "pushing image failed: " ++ err),
        { σ with trace := σ.trace ++ [pushCmd σ.opts] }) := by
  simp only [push, wrap_eq, runCmd]


/-! ## The loop of `buildArchs` -/

theorem buildLoop_opts (env : Env) (path tag : String) :
    ∀ (l : List String) (σ : State), (buildLoop env path tag l σ).2.opts = σ.opts
  | [], σ => rfl
  | a :: l, σ => by
    rw [buildLoop, runCmd]
    cases env.run σ.trace (buildCmd env σ.opts path tag a) with
    | some e => rfl
    | none => exact buildLoop_opts env path tag l _

theorem buildLoop_ok (env : Env) (path tag : String) :
    ∀ (l : List String) (σ : State),
      (∀ p b q, l = p ++ b :: q →
        env.run (σ.trace ++ p.map (buildCmd env σ.opts path tag))
          (buildCmd env σ.opts path tag b) = none) →
      buildLoop env path tag l σ =
        (none, { σ with trace := σ.trace ++ l.map (buildCmd env σ.opts path tag) })
  | [], σ, _ => by simp [buildLoop]
  | a :: l, σ, h => by
    have h0 := h [] a l rfl
    simp only [List.map_nil, List.append_nil] at h0
    rw [buildLoop, runCmd, h0]
    simp only
    rw [buildLoop_ok env path tag l _ ?_]
    · simp
    · intro p b q hl
      have h1 := h (a :: p) b q (by simp [hl])
      simpa using h1

theorem buildLoop_fail (env : Env) (path tag : String) :
    ∀ (pre : List String) (σ : State) (a : String) (post : List String) (e : String),
      (∀ p b q, pre = p ++ b :: q →
        env.run (σ.trace ++ p.map (buildCmd env σ.opts path tag))
          (buildCmd env σ.opts path tag b) = none) →
      env.run (σ.trace ++ pre.map (buildCmd env σ.opts path tag))
        (buildCmd env σ.opts path tag a) = some e →
      buildLoop env path tag (pre ++ a :: post) σ =
        (some ("building arch " ++ a ++ " failed: " ++ e),
          { σ with trace := σ.trace ++ (pre ++ [a]).map (buildCmd env σ.opts path tag) })
  | [], σ, a, post, e, _, he => by
    simp only [List.map_nil, List.append_nil] at he
    simp only [List.nil_append]
    rw [buildLoop, runCmd, he]
    simp
  | c :: pre, σ, a, post, e, h, he => by
    have h0 := h [] c pre rfl
    simp only [List.map_nil, List.append_nil] at h0
    simp only [List.cons_append]
    rw [buildLoop, runCmd, h0]
    simp only
    rw [buildLoop_fail env path tag pre _ a post e ?_ ?_]
    · simp
    · intro p b q hl
      have h1 := h (c :: p) b q (by simp [hl])
      simpa using h1
    · simpa using he

/-! ## The loop of `execute` -/

theorem executeSteps_append (env : Env) :
    ∀ (l₁ l₂ : List String) (σ : State),
      executeSteps env (l₁ ++ l₂) σ =
        match executeSteps env l₁ σ with
        | (some err, σ₁) => (some err, σ₁)
        | (none, σ₁) => executeSteps env l₂ σ₁
  | [], l₂, σ => by simp [executeSteps]
  | s :: l₁, l₂, σ => by
    simp only [List.cons_append, executeSteps]
    rcases h : runStep env s σ with ⟨_ | e, σ₁⟩
    · simp only
      exact executeSteps_append env l₁ l₂ σ₁
    · rfl

/-- A step that fails ends the loop in the state it leaves behind. -/
theorem executeSteps_fail (env : Env) (pre : List String) (s : String) (post : List String)
    (σ σ₁ σ₂ : State) (e : String)
    (hpre : executeSteps env pre σ = (none, σ₁)) (hs : runStep env s σ₁ = (some e, σ₂)) :
    executeSteps env (pre ++ s :: post) σ = (some e, σ₂) := by
  rw [executeSteps_append, hpre]
  simp only [executeSteps, hs]

theorem initWorkspace_opts (env : Env) (σ : State) :
    (initWorkspace env σ).2.opts = σ.opts ∧ (initWorkspace env σ).2.trace = σ.trace := by
  unfold initWorkspace
  split
  · exact ⟨rfl, rfl⟩
  · simp only
    split
    · exact ⟨rfl, rfl⟩
    · split
      · split <;> exact ⟨rfl, rfl⟩
      · exact ⟨rfl, rfl⟩

theorem execute_of_init (env : Env) (σ σ₀ : State) (h : initWorkspace env σ = (none, σ₀)) :
    execute env σ = executeSteps env σ.opts.Steps σ₀ := by
  have ho := (initWorkspace_opts env σ).1
  rw [h] at ho
  simp only at ho
  simp only [execute, h, ho]

/-! ## The operations, one by one -/

/-- C1: when Username or Password is the empty string, `login` returns the
error "username and password are required"; when Registry is the empty string
it returns an error whatever the credentials are ("registry is required" when
both credentials are present); in all these cases the state, and with it the
list of external invocations, is left as it was. Hence `login` invokes the
external tool only when all three are non-empty, and then exactly once. -/
theorem login_requires_credentials (env : Env) (σ : State) :
    (σ.opts.Username = "" ∨ σ.opts.Password = "" →
      login env σ = (some "username and password are required", σ)) ∧
    (σ.opts.Registry = "" → ∃ msg, login env σ = (some msg, σ)) ∧
    (σ.opts.Username ≠ "" → σ.opts.Password ≠ "" → σ.opts.Registry = "" →
      login env σ = (some "registry is required", σ)) ∧
    ((login env σ).2.trace ≠ σ.trace →
      σ.opts.Username ≠ "" ∧ σ.opts.Password ≠ "" ∧ σ.opts.Registry ≠ "") ∧
    (σ.opts.Username ≠ "" → σ.opts.Password ≠ "" → σ.opts.Registry ≠ "" →
      (login env σ).2.trace = σ.trace ++ [loginCmd σ.opts]) := by
  refine ⟨?_, ?_, ?_, ?_, ?_⟩
  · intro h
    have h1 : (len σ.opts.Username == 0 || len σ.opts.Password == 0) = true := by
      rcases h with h | h <;> simp [h, len_empty]
    unfold login
    rw [if_pos h1]
  · intro h
    exact login_of_empty env σ (Or.inr (Or.inr h))
  · intro hu hp hr
    have h1 : ¬ (len σ.opts.Username == 0 || len σ.opts.Password == 0) = true := by
      simp [len_eq_zero_iff, hu, hp]
    have h2 : (len σ.opts.Registry == 0) = true := by simp [hr, len_empty]
    unfold login
    rw [if_neg h1, if_pos h2]
  · intro h
    by_contra hne
    have hempty : σ.opts.Username = "" ∨ σ.opts.Password = "" ∨ σ.opts.Registry = "" := by
      by_contra hall
      simp only [not_or] at hall
      exact hne ⟨hall.1, hall.2.1, hall.2.2⟩
    obtain ⟨msg, hmsg⟩ := login_of_empty env σ hempty
    rw [hmsg] at h
    exact h rfl
  · intro hu hp hr
    rw [login_of_ok env σ hu hp hr]

/-- C4: `push` invokes the external tool exactly once, whatever the outcome,
with the arguments `manifest push --all --log-level LogLevel ManifestName dest`
followed by Flags and PushArgs, where `dest` is
`Transport ++ "://" ++ Registry ++ "/" ++ Repository ++ ":" ++ Tag`; the error
it returns is the tool's, prefixed with "pushing image failed: ". -/
theorem push_invokes_once (env : Env) (σ : State) :
    (push env σ).2 =
      { σ with trace := σ.trace ++
        [{ Path := "/usr/bin/buildah"
           Args := ["manifest", "push", "--all", "--log-level", σ.opts.LogLevel,
             σ.opts.ManifestName,
             σ.opts.Transport ++ "://" ++ σ.opts.Registry ++ "/" ++ σ.opts.Repository
               ++ ":" ++ σ.opts.Tag] ++ σ.opts.Flags ++ σ.opts.PushArgs
           Stdin := none
           Stdout := some Stream.osStdout
           Stderr := some Stream.osStderr }] } ∧
    (push env σ).1 =
      (env.run σ.trace (pushCmd σ.opts)).map (fun err => "pushing image failed: " ++ err) := by
  rw [push_eq]
  exact ⟨rfl, rfl⟩

/-- C5: with an empty ManifestName, `createManifest` invokes the external
tool once with `manifest create c --log-level LogLevel` followed by Flags and
ManifestArgs, where `c` is the value of CI_COMMIT_SHA, and stores `c` in
ManifestName; with a non-empty ManifestName the configured name is used, the
configuration is unchanged and the value of CI_COMMIT_SHA has no effect. -/
theorem createManifest_name (env : Env) (σ : State) :
    (σ.opts.ManifestName = "" →
      (createManifest env σ).2 =
        { σ with
          opts := { σ.opts with ManifestName := env.CI_COMMIT_SHA }
          trace := σ.trace ++
            [{ Path := "/usr/bin/buildah"
               Args := ["manifest", "create", env.CI_COMMIT_SHA, "--log-level",
                 σ.opts.LogLevel] ++ σ.opts.Flags ++ σ.opts.ManifestArgs
               Stdin := none
               Stdout := some Stream.osStdout
               Stderr := some Stream.osStderr }] }) ∧
    (σ.opts.ManifestName ≠ "" →
      (createManifest env σ).2 =
        { σ with
          trace := σ.trace ++
            [{ Path := "/usr/bin/buildah"
               Args := ["manifest", "create", σ.opts.ManifestName, "--log-level",
                 σ.opts.LogLevel] ++ σ.opts.Flags ++ σ.opts.ManifestArgs
               Stdin := none
               Stdout := some Stream.osStdout
               Stderr := some Stream.osStderr }] } ∧
      ∀ c : String, createManifest { env with CI_COMMIT_SHA := c } σ = createManifest env σ) := by
  constructor
  · intro h
    rw [createManifest_eq]
    simp only [if_pos h]
    rfl
  · intro h
    constructor
    · rw [createManifest_eq]
      simp only [if_neg h]
      rfl
    · intro c
      rw [createManifest_eq, createManifest_eq]
      simp only [if_neg h]

/-- C7: when Username, Password and Registry are non-empty, `login` makes one
invocation whose argument list is
`login --username Username --password-stdin Registry` and whose standard input
holds Password; the argument list does not depend on Password: with any other
non-empty password, and whatever the tool answers, the argument lists of the
invocations are the same. -/
theorem login_password_on_stdin (env : Env) (σ : State)
    (hu : σ.opts.Username ≠ "") (hp : σ.opts.Password ≠ "") (hr : σ.opts.Registry ≠ "") :
    (login env σ).2.trace = σ.trace ++
      [{ Path := "/usr/bin/buildah"
         Args := ["login", "--username", σ.opts.Username, "--password-stdin",
           σ.opts.Registry]
         Stdin := some σ.opts.Password
         Stdout := some Stream.osStdout
         Stderr := some Stream.osStderr }] ∧
    ∀ (env₂ : Env) (pw : String), pw ≠ "" →
      ((login env₂ { σ with opts := { σ.opts with Password := pw } }).2.trace).map Cmd.Args =
        ((login env σ).2.trace).map Cmd.Args := by
  constructor
  · rw [login_of_ok env σ hu hp hr]
    rfl
  · intro env₂ pw hpw
    rw [login_of_ok env σ hu hp hr,
      login_of_ok env₂ { σ with opts := { σ.opts with Password := pw } } hu hpw hr]
    simp [loginCmd]

/-! ## The build operation -/

/-- The test `containsChars` is the test for a contiguous sublist. -/
theorem containsChars_iff (sub : List Char) :
    ∀ s : List Char, containsChars s sub = true ↔ List.IsInfix sub s
  | [] => by
    simp [containsChars, List.isPrefixOf_iff_prefix]
  | c :: t => by
    simp only [containsChars, Bool.or_eq_true, List.isPrefixOf_iff_prefix,
      containsChars_iff sub t, List.infix_cons_iff]

/-- The test of `strings.Contains` is the substring test. -/
theorem stringsContains_iff (s substr : String) :
    stringsContains s substr = true ↔ List.IsInfix substr.toList s.toList :=
  containsChars_iff substr.toList s.toList

theorem buildCmd_eq (env : Env) (o : options) (arch : String) :
    buildCmd env o (buildPath o) (buildTag o) arch =
      { Path := "/usr/bin/buildah"
        Args := ["build", "--manifest", o.ManifestName, "--arch", arch, "--tag",
          o.Registry ++ "/" ++ o.Repository ++ ":" ++ o.Tag, "--log-level", o.LogLevel]
          ++ o.Flags ++ o.BuildArgs
          ++ (if List.IsInfix arch.toList env.GOARCH.toList then [] else ["-f"])
          ++ [o.CurrentPath ++ "/" ++ o.Context]
        Stdin := none
        Stdout := some Stream.osStdout
        Stderr := some Stream.osStderr } := by
  by_cases h : List.IsInfix arch.toList env.GOARCH.toList
  · have hc : stringsContains env.GOARCH arch = true := (stringsContains_iff _ _).2 h
    rw [if_pos h]
    simp [buildCmd, buildArgs, buildPath, buildTag, buildahPath, hc]
  · have hc : stringsContains env.GOARCH arch = false := by
      rw [← Bool.not_eq_true]
      exact fun hc => h ((stringsContains_iff _ _).1 hc)
    rw [if_neg h]
    simp [buildCmd, buildArgs, buildPath, buildTag, buildahPath, hc]

/-- C9: `buildArchs` runs, in the order of Architectures, one invocation per
architecture `a` with the arguments
`build --manifest ManifestName --arch a --tag Registry/Repository:Tag
--log-level LogLevel`, then Flags, BuildArgs, `-f` when `a` is not a substring
of the host architecture, and last `CurrentPath/Context`. At the first
invocation that fails it returns "building arch a failed: " followed by the
tool's error, having invoked nothing for the later architectures; when every
invocation succeeds it returns no error after one invocation per architecture. -/
theorem buildArchs_invocations (env : Env) (σ : State) :
    let cmd : String → Cmd := fun a =>
      { Path := "/usr/bin/buildah"
        Args := ["build", "--manifest", σ.opts.ManifestName, "--arch", a, "--tag",
          σ.opts.Registry ++ "/" ++ σ.opts.Repository ++ ":" ++ σ.opts.Tag, "--log-level",
          σ.opts.LogLevel]
          ++ σ.opts.Flags ++ σ.opts.BuildArgs
          ++ (if List.IsInfix a.toList env.GOARCH.toList then [] else ["-f"])
          ++ [σ.opts.CurrentPath ++ "/" ++ σ.opts.Context]
        Stdin := none
        Stdout := some Stream.osStdout
        Stderr := some Stream.osStderr }
    (∀ (pre : List String) (a : String) (post : List String) (e : String),
      σ.opts.Architectures = pre ++ a :: post →
      (∀ p b q, pre = p ++ b :: q → env.run (σ.trace ++ p.map cmd) (cmd b) = none) →
      env.run (σ.trace ++ pre.map cmd) (cmd a) = some e →
      buildArchs env σ =
        (some ("building arch " ++ a ++ " failed: " ++ e),
          { σ with trace := σ.trace ++ (pre ++ [a]).map cmd })) ∧
    ((∀ p b q, σ.opts.Architectures = p ++ b :: q →
        env.run (σ.trace ++ p.map cmd) (cmd b) = none) →
      buildArchs env σ =
        (none, { σ with trace := σ.trace ++ σ.opts.Architectures.map cmd })) := by
  intro cmd
  have hcmd : buildCmd env σ.opts (buildPath σ.opts) (buildTag σ.opts) = cmd :=
    funext fun a => buildCmd_eq env σ.opts a
  constructor
  · intro pre a post e harch hpre he
    unfold buildArchs
    simp only [harch]
    rw [buildLoop_fail env _ _ pre σ a post e (by rw [hcmd]; exact hpre) (by rw [hcmd]; exact he),
      hcmd]
  · intro hall
    unfold buildArchs
    simp only
    rw [buildLoop_ok env _ _ _ σ (by rw [hcmd]; exact hall), hcmd]

theorem ne_of_slash (a b : String) : "-f" ≠ a ++ "/" ++ b := by
  intro h
  have hd := congrArg String.data h
  simp only [String.data_append] at hd
  have hm : '/' ∈ ['-', 'f'] := by
    rw [hd]
    simp
  revert hm
  decide

theorem buildTag_ne (o : options) : "-f" ≠ buildTag o := by
  intro h
  have hd := congrArg String.data h
  simp only [buildTag, String.data_append] at hd
  have hm : '/' ∈ ['-', 'f'] := by
    rw [hd]
    simp
  revert hm
  decide

theorem buildArgs_native (env : Env) (o : options) (path tag arch : String)
    (h : stringsContains env.GOARCH arch = true) :
    buildArgs env o path tag arch =
      ["build", "--manifest", o.ManifestName, "--arch", arch, "--tag", tag, "--log-level",
        o.LogLevel] ++ o.Flags ++ o.BuildArgs ++ [path] := by
  simp [buildArgs, h]

theorem buildArgs_foreign (env : Env) (o : options) (path tag arch : String)
    (h : stringsContains env.GOARCH arch = false) :
    buildArgs env o path tag arch =
      ["build", "--manifest", o.ManifestName, "--arch", arch, "--tag", tag, "--log-level",
        o.LogLevel] ++ o.Flags ++ o.BuildArgs ++ ["-f", path] := by
  simp [buildArgs, h]

/-- C6 (as amended): with Architectures = ["amd64","arm64"] on a host whose
architecture is "amd64", `buildArchs` invokes the tool for "amd64" and then,
if that succeeded, for "arm64". The argument list for "arm64" has `-f` put in
front of the context path and so contains it. The argument list for "amd64"
has no `-f` put in: it contains `-f` exactly when the configuration itself
supplies one, as ManifestName, as LogLevel or as an entry of Flags or
BuildArgs. -/
theorem buildArchs_force_flag (env : Env) (σ : State)
    (hA : σ.opts.Architectures = ["amd64", "arm64"]) (hG : env.GOARCH = "amd64") :
    let args : String → List String := fun a =>
      buildArgs env σ.opts (buildPath σ.opts) (buildTag σ.opts) a
    ((buildArchs env σ).2.trace.map Cmd.Args = σ.trace.map Cmd.Args ++ [args "amd64"] ∨
      (buildArchs env σ).2.trace.map Cmd.Args =
        σ.trace.map Cmd.Args ++ [args "amd64", args "arm64"]) ∧
    args "arm64" =
      ["build", "--manifest", σ.opts.ManifestName, "--arch", "arm64", "--tag",
        buildTag σ.opts, "--log-level", σ.opts.LogLevel] ++ σ.opts.Flags ++ σ.opts.BuildArgs
        ++ ["-f", buildPath σ.opts] ∧
    "-f" ∈ args "arm64" ∧
    args "amd64" =
      ["build", "--manifest", σ.opts.ManifestName, "--arch", "amd64", "--tag",
        buildTag σ.opts, "--log-level", σ.opts.LogLevel] ++ σ.opts.Flags ++ σ.opts.BuildArgs
        ++ [buildPath σ.opts] ∧
    ("-f" ∈ args "amd64" ↔
      σ.opts.ManifestName = "-f" ∨ σ.opts.LogLevel = "-f" ∨ "-f" ∈ σ.opts.Flags ∨
        "-f" ∈ σ.opts.BuildArgs) := by
  intro args
  have hnat : stringsContains env.GOARCH "amd64" = true := by rw [hG]; decide
  have hfor : stringsContains env.GOARCH "arm64" = false := by rw [hG]; decide
  have harm := buildArgs_foreign env σ.opts (buildPath σ.opts) (buildTag σ.opts) "arm64" hfor
  have hamd := buildArgs_native env σ.opts (buildPath σ.opts) (buildTag σ.opts) "amd64" hnat
  refine ⟨?_, harm, ?_, hamd, ?_⟩
  · unfold buildArchs
    simp only [hA, buildLoop, runCmd]
    cases env.run σ.trace
        (buildCmd env σ.opts (buildPath σ.opts) (buildTag σ.opts) "amd64") with
    | some e =>
      left
      simp [buildCmd, args]
    | none =>
      right
      simp only
      cases env.run
          (σ.trace ++ [buildCmd env σ.opts (buildPath σ.opts) (buildTag σ.opts) "amd64"])
          (buildCmd env σ.opts (buildPath σ.opts) (buildTag σ.opts) "arm64") with
      | some e => simp [buildCmd, args]
      | none => simp [buildCmd, args]
  · show "-f" ∈ buildArgs env σ.opts (buildPath σ.opts) (buildTag σ.opts) "arm64"
    rw [harm]
    simp
  · show "-f" ∈ buildArgs env σ.opts (buildPath σ.opts) (buildTag σ.opts) "amd64" ↔ _
    rw [hamd]
    have h1 : "-f" ≠ buildTag σ.opts := buildTag_ne σ.opts
    have h2 : "-f" ≠ buildPath σ.opts := ne_of_slash _ _
    have e1 : ("-f" = "build") = False := by decide
    have e2 : ("-f" = "--manifest") = False := by decide
    have e3 : ("-f" = "--arch") = False := by decide
    have e4 : ("-f" = "amd64") = False := by decide
    have e5 : ("-f" = "--tag") = False := by decide
    have e6 : ("-f" = "--log-level") = False := by decide
    simp only [List.mem_append, List.mem_cons, List.mem_singleton, List.not_mem_nil,
      e1, e2, e3, e4, e5, e6, h1, h2, false_or, or_false]
    constructor
    · rintro ((h | h) | h)
      · rcases h with h | h
        · exact Or.inl h.symm
        · exact Or.inr (Or.inl h.symm)
      · exact Or.inr (Or.inr (Or.inl h))
      · exact Or.inr (Or.inr (Or.inr h))
    · rintro (h | h | h | h)
      · exact Or.inl (Or.inl (Or.inl h.symm))
      · exact Or.inl (Or.inl (Or.inr h.symm))
      · exact Or.inl (Or.inr h)
      · exact Or.inr h

/-- C6, counterexample: a configuration with Architectures = ["amd64","arm64"]
on an amd64 host whose argument list for "amd64" does contain `-f`. -/
theorem buildArchs_force_flag_counterexample :
    optsFile.Architectures = ["amd64", "arm64"] ∧ envOk.GOARCH = "amd64" ∧
    "-f" ∈ buildArgs envOk optsFile (buildPath optsFile) (buildTag optsFile) "amd64" ∧
    (buildArchs envOk (initial optsFile)).2.trace.map Cmd.Args =
      [["build", "--manifest", "", "--arch", "amd64", "--tag", "reg.io/org/app:latest",
          "--log-level", "info", "-f", "Containerfile.ci", "/woodpecker/src/Dockerfile"],
        ["build", "--manifest", "", "--arch", "arm64", "--tag", "reg.io/org/app:latest",
          "--log-level", "info", "-f", "Containerfile.ci", "-f",
          "/woodpecker/src/Dockerfile"]] := by
  refine ⟨rfl, rfl, ?_, ?_⟩
  · decide
  · decide

/-! ## Facts about the dispatcher -/

theorem buildLoop_state (env : Env) (path tag : String) :
    ∀ (l : List String) (σ : State), ∃ k,
      (buildLoop env path tag l σ).2 =
        { σ with trace := σ.trace ++ (l.take k).map (buildCmd env σ.opts path tag) }
  | [], σ => ⟨0, by simp [buildLoop]⟩
  | a :: l, σ => by
    rw [buildLoop, runCmd]
    cases env.run σ.trace (buildCmd env σ.opts path tag a) with
    | some e => exact ⟨1, by simp⟩
    | none =>
      obtain ⟨k, hk⟩ := buildLoop_state env path tag l
        { σ with trace := σ.trace ++ [buildCmd env σ.opts path tag a] }
      exact ⟨k + 1, by simp only [hk]; simp⟩

theorem buildLoop_none (env : Env) (path tag : String) :
    ∀ (l : List String) (σ : State), (buildLoop env path tag l σ).1 = none →
      (buildLoop env path tag l σ).2 =
        { σ with trace := σ.trace ++ l.map (buildCmd env σ.opts path tag) }
  | [], σ, _ => by simp [buildLoop]
  | a :: l, σ, h => by
    rw [buildLoop, runCmd] at h ⊢
    cases hr : env.run σ.trace (buildCmd env σ.opts path tag a) with
    | some e => rw [hr] at h; simp at h
    | none =>
      rw [hr] at h
      simp only at h ⊢
      rw [buildLoop_none env path tag l _ h]
      simp

theorem login_none (env : Env) (σ : State) (h : (login env σ).1 = none) :
    (login env σ).2 = { σ with trace := σ.trace ++ [loginCmd σ.opts] } := by
  by_cases hempty : σ.opts.Username = "" ∨ σ.opts.Password = "" ∨ σ.opts.Registry = ""
  · obtain ⟨msg, hmsg⟩ := login_of_empty env σ hempty
    rw [hmsg] at h
    simp at h
  · simp only [not_or] at hempty
    rw [login_of_ok env σ hempty.1 hempty.2.1 hempty.2.2]

theorem login_state (env : Env) (σ : State) :
    (login env σ).2 = σ ∨ (login env σ).2 = { σ with trace := σ.trace ++ [loginCmd σ.opts] } := by
  by_cases hempty : σ.opts.Username = "" ∨ σ.opts.Password = "" ∨ σ.opts.Registry = ""
  · obtain ⟨msg, hmsg⟩ := login_of_empty env σ hempty
    rw [hmsg]
    exact Or.inl rfl
  · simp only [not_or] at hempty
    rw [login_of_ok env σ hempty.1 hempty.2.1 hempty.2.2]
    exact Or.inr rfl

theorem runStep_login (env : Env) (σ : State) : runStep env "login" σ = login env σ := by
  simp [runStep]

theorem runStep_manifest (env : Env) (σ : State) :
    runStep env "manifest" σ = createManifest env σ := by
  simp [runStep]

theorem runStep_build (env : Env) (σ : State) : runStep env "build" σ = buildArchs env σ := by
  simp [runStep]

theorem runStep_push (env : Env) (σ : State) : runStep env "push" σ = push env σ := by
  simp [runStep]

theorem runStep_other (env : Env) (s : String) (σ : State) (h1 : s ≠ "login")
    (h2 : s ≠ "manifest") (h3 : s ≠ "build") (h4 : s ≠ "push") :
    runStep env s σ = (none, σ) := by
  simp [runStep, h1, h2, h3, h4]

/-- The five ways a step name can read. -/
theorem step_cases (s : String) :
    s = "login" ∨ s = "manifest" ∨ s = "build" ∨ s = "push" ∨
      (s ≠ "login" ∧ s ≠ "manifest" ∧ s ≠ "build" ∧ s ≠ "push") := by
  by_cases h1 : s = "login"
  · exact Or.inl h1
  by_cases h2 : s = "manifest"
  · exact Or.inr (Or.inl h2)
  by_cases h3 : s = "build"
  · exact Or.inr (Or.inr (Or.inl h3))
  by_cases h4 : s = "push"
  · exact Or.inr (Or.inr (Or.inr (Or.inl h4)))
  exact Or.inr (Or.inr (Or.inr (Or.inr ⟨h1, h2, h3, h4⟩)))

/-- A step that succeeds leaves the configuration and the invocations the
specification lists for it. -/
theorem runStep_none (env : Env) (s : String) (σ : State) (h : (runStep env s σ).1 = none) :
    (runStep env s σ).2 =
      { σ with opts := stepOpts env s σ.opts, trace := σ.trace ++ stepCmds env s σ.opts } := by
  rcases step_cases s with hs | hs | hs | hs | ⟨h1, h2, h3, h4⟩
  · subst hs
    rw [runStep_login] at h ⊢
    rw [login_none env σ h]
    simp [stepOpts, stepCmds]
  · subst hs
    rw [runStep_manifest, createManifest_eq]
    by_cases hm : σ.opts.ManifestName = "" <;> simp [stepOpts, stepCmds, hm]
  · subst hs
    rw [runStep_build] at h ⊢
    unfold buildArchs at h ⊢
    rw [buildLoop_none env _ _ _ σ h]
    simp [stepOpts, stepCmds]
  · subst hs
    rw [runStep_push, push_eq]
    simp [stepOpts, stepCmds]
  · rw [runStep_other env s σ h1 h2 h3 h4]
    simp [stepOpts, stepCmds, h1, h2, h3, h4]

theorem executeSteps_none (env : Env) :
    ∀ (l : List String) (σ : State), (executeSteps env l σ).1 = none →
      (executeSteps env l σ).2.trace = σ.trace ++ expectedTrace env l σ.opts
  | [], σ, _ => by simp [executeSteps, expectedTrace]
  | s :: l, σ, h => by
    rw [executeSteps] at h ⊢
    rcases hr : runStep env s σ with ⟨_ | e, σ₁⟩
    · rw [hr] at h
      simp only at h ⊢
      have h1 := runStep_none env s σ (by rw [hr])
      rw [hr] at h1
      simp only at h1
      rw [executeSteps_none env l σ₁ h, h1]
      simp [expectedTrace]
    · rw [hr] at h
      simp at h

theorem execute_none_init (env : Env) (σ : State) (h : (execute env σ).1 = none) :
    ∃ σ₀, initWorkspace env σ = (none, σ₀) := by
  unfold execute at h
  rcases hr : initWorkspace env σ with ⟨_ | e, σ₀⟩
  · exact ⟨σ₀, rfl⟩
  · rw [hr] at h
    simp at h

/-- C2: when the part of `execute` before the loop has succeeded and the steps
before position i have run without error, an error `e` of the operation run
for the step at position i is what `execute` returns, and the final state of
`execute` is the one that operation left: nothing is invoked for the steps
after it, whatever they are. -/
theorem execute_stops_at_first_failure (env : Env) (σ σ₀ σ₁ σ₂ : State)
    (pre : List String) (s : String) (post : List String) (e : String)
    (hsteps : σ.opts.Steps = pre ++ s :: post)
    (hinit : initWorkspace env σ = (none, σ₀))
    (hpre : executeSteps env pre σ₀ = (none, σ₁))
    (hs : runStep env s σ₁ = (some e, σ₂)) :
    execute env σ = (some e, σ₂) ∧ (execute env σ).2.trace = σ₂.trace := by
  have h : execute env σ = (some e, σ₂) := by
    rw [execute_of_init env σ σ₀ hinit, hsteps]
    exact executeSteps_fail env pre s post σ₀ σ₁ σ₂ e hpre hs
  exact ⟨h, by rw [h]⟩

/-- C3: when `execute` returns no error (every operation succeeded), the
invocations it has made are those of the operations named by the step list,
one operation per entry and in the order of the list; for
Steps = ["push","login"] they are the push invocation followed by the login
invocation. -/
theorem execute_in_list_order (env : Env) (σ : State) (hok : (execute env σ).1 = none) :
    (execute env σ).2.trace = σ.trace ++ expectedTrace env σ.opts.Steps σ.opts ∧
    (σ.opts.Steps = ["push", "login"] →
      (execute env σ).2.trace = σ.trace ++ [pushCmd σ.opts, loginCmd σ.opts]) := by
  obtain ⟨σ₀, hinit⟩ := execute_none_init env σ hok
  have ho := initWorkspace_opts env σ
  rw [hinit] at ho
  simp only at ho
  have hmain : (execute env σ).2.trace = σ.trace ++ expectedTrace env σ.opts.Steps σ.opts := by
    rw [execute_of_init env σ σ₀ hinit] at hok ⊢
    rw [executeSteps_none env _ σ₀ hok, ho.1, ho.2]
  refine ⟨hmain, ?_⟩
  intro hsteps
  rw [hmain, hsteps]
  simp [expectedTrace, stepCmds, stepOpts]

/-! ## Step names without a case -/

theorem runStep_unrecognized (env : Env) (s : String) (σ : State)
    (h : recognized s = false) : runStep env s σ = (none, σ) := by
  simp only [recognized, Bool.or_eq_false_iff, beq_eq_false_iff_ne] at h
  exact runStep_other env s σ h.1.1.1 h.1.1.2 h.1.2 h.2

theorem executeSteps_filter (env : Env) :
    ∀ (l : List String) (σ : State),
      executeSteps env (l.filter recognized) σ = executeSteps env l σ
  | [], σ => rfl
  | s :: l, σ => by
    cases h : recognized s with
    | false =>
      rw [List.filter_cons_of_neg (by simp [h]), executeSteps_filter env l σ, executeSteps,
        runStep_unrecognized env s σ h]
    | true =>
      rw [List.filter_cons_of_pos h, executeSteps, executeSteps]
      rcases runStep env s σ with ⟨_ | e, σ₁⟩
      · exact executeSteps_filter env l σ₁
      · rfl

theorem login_setSteps (env : Env) (t : List String) (σ : State) :
    login env (setSteps t σ) = ((login env σ).1, setSteps t (login env σ).2) := by
  unfold login
  simp only [setSteps, wrap_eq, runCmd]
  split
  · rfl
  · split
    · rfl
    · rfl

theorem createManifest_setSteps (env : Env) (t : List String) (σ : State) :
    createManifest env (setSteps t σ) =
      ((createManifest env σ).1, setSteps t (createManifest env σ).2) := by
  rw [createManifest_eq, createManifest_eq]
  by_cases h : σ.opts.ManifestName = ""
  · simp only [setSteps, if_pos h]
    rfl
  · simp only [setSteps, if_neg h]
    rfl

theorem buildLoop_setSteps (env : Env) (path tag : String) (t : List String) :
    ∀ (l : List String) (σ : State),
      buildLoop env path tag l (setSteps t σ) =
        ((buildLoop env path tag l σ).1, setSteps t (buildLoop env path tag l σ).2)
  | [], σ => rfl
  | a :: l, σ => by
    rw [buildLoop, buildLoop, runCmd, runCmd]
    have hc : buildCmd env (setSteps t σ).opts path tag a = buildCmd env σ.opts path tag a := rfl
    have ht : (setSteps t σ).trace = σ.trace := rfl
    rw [hc, ht]
    cases env.run σ.trace (buildCmd env σ.opts path tag a) with
    | some e => rfl
    | none =>
      exact buildLoop_setSteps env path tag t l
        { σ with trace := σ.trace ++ [buildCmd env σ.opts path tag a] }

theorem push_setSteps (env : Env) (t : List String) (σ : State) :
    push env (setSteps t σ) = ((push env σ).1, setSteps t (push env σ).2) := by
  rw [push_eq, push_eq]
  rfl

theorem runStep_setSteps (env : Env) (t : List String) (s : String) (σ : State) :
    runStep env s (setSteps t σ) = ((runStep env s σ).1, setSteps t (runStep env s σ).2) := by
  rcases step_cases s with hs | hs | hs | hs | ⟨h1, h2, h3, h4⟩
  · subst hs
    rw [runStep_login, runStep_login, login_setSteps]
  · subst hs
    rw [runStep_manifest, runStep_manifest, createManifest_setSteps]
  · subst hs
    rw [runStep_build, runStep_build]
    exact buildLoop_setSteps env _ _ t _ σ
  · subst hs
    rw [runStep_push, runStep_push, push_setSteps]
  · rw [runStep_other env s _ h1 h2 h3 h4, runStep_other env s _ h1 h2 h3 h4]

theorem executeSteps_setSteps (env : Env) (t : List String) :
    ∀ (l : List String) (σ : State),
      executeSteps env l (setSteps t σ) =
        ((executeSteps env l σ).1, setSteps t (executeSteps env l σ).2)
  | [], σ => rfl
  | s :: l, σ => by
    rw [executeSteps, executeSteps, runStep_setSteps]
    rcases runStep env s σ with ⟨_ | e, σ₁⟩
    · exact executeSteps_setSteps env t l σ₁
    · rfl

theorem initWorkspace_setSteps (env : Env) (t : List String) (σ : State) :
    initWorkspace env (setSteps t σ) =
      ((initWorkspace env σ).1, setSteps t (initWorkspace env σ).2) := by
  unfold initWorkspace
  simp only [setSteps]
  split
  · rfl
  · split
    · rfl
    · split
      · split <;> rfl
      · rfl

theorem execute_setSteps_filter (env : Env) (σ : State) :
    execute env (setSteps (σ.opts.Steps.filter recognized) σ) =
      ((execute env σ).1, setSteps (σ.opts.Steps.filter recognized) (execute env σ).2) := by
  have ho := (initWorkspace_opts env σ).1
  unfold execute
  rw [initWorkspace_setSteps]
  rcases hi : initWorkspace env σ with ⟨_ | e, σ₀⟩
  · rw [hi] at ho
    simp only at ho ⊢
    have hs : (setSteps (List.filter recognized σ.opts.Steps) σ₀).opts.Steps =
        List.filter recognized σ.opts.Steps := rfl
    rw [hs, executeSteps_setSteps, executeSteps_filter, ho]
  · rfl

/-- C8: step names other than "login", "manifest", "build" and "push" are
no-ops. Running `execute` with these names removed from the step list gives
the same error result and the same sequence of external invocations (the final
states differ in the field Steps alone); and when the step list holds no
other names and the part of `execute` before the loop succeeds, `execute`
returns no error and invokes nothing. -/
theorem unknown_steps_are_noops (env : Env) (σ : State) :
    (execute env (setSteps (σ.opts.Steps.filter recognized) σ)).1 = (execute env σ).1 ∧
    (execute env (setSteps (σ.opts.Steps.filter recognized) σ)).2.trace =
      (execute env σ).2.trace ∧
    (execute env (setSteps (σ.opts.Steps.filter recognized) σ)).2 =
      setSteps (σ.opts.Steps.filter recognized) (execute env σ).2 ∧
    ((∀ s ∈ σ.opts.Steps, s ≠ "login" ∧ s ≠ "manifest" ∧ s ≠ "build" ∧ s ≠ "push") →
      ∀ σ₀, initWorkspace env σ = (none, σ₀) →
        execute env σ = (none, σ₀) ∧ (execute env σ).2.trace = σ.trace) := by
  rw [execute_setSteps_filter]
  refine ⟨rfl, rfl, rfl, ?_⟩
  intro hall σ₀ hinit
  have hloop : ∀ (l : List String) (τ : State),
      (∀ s ∈ l, s ≠ "login" ∧ s ≠ "manifest" ∧ s ≠ "build" ∧ s ≠ "push") →
      executeSteps env l τ = (none, τ) := by
    intro l
    induction l with
    | nil => intro τ _; rfl
    | cons s l ih =>
      intro τ hl
      have hs := hl s (List.mem_cons_self s l)
      rw [executeSteps, runStep_other env s τ hs.1 hs.2.1 hs.2.2.1 hs.2.2.2]
      exact ih τ fun x hx => hl x (List.mem_cons_of_mem s hx)
  have h : execute env σ = (none, σ₀) := by
    rw [execute_of_init env σ σ₀ hinit]
    exact hloop _ σ₀ hall
  have ht := (initWorkspace_opts env σ).2
  rw [hinit] at ht
  exact ⟨h, by rw [h]; exact ht⟩

/-! ## The frame of the operations -/

theorem login_opts (env : Env) (σ : State) : (login env σ).2.opts = σ.opts := by
  rcases login_state env σ with h | h <;> rw [h]

theorem buildArchs_opts (env : Env) (σ : State) : (buildArchs env σ).2.opts = σ.opts :=
  buildLoop_opts env _ _ _ σ

theorem push_opts (env : Env) (σ : State) : (push env σ).2.opts = σ.opts := by
  rw [push_eq]

theorem runStep_opts (env : Env) (s : String) (σ : State) (h : s ≠ "manifest") :
    (runStep env s σ).2.opts = σ.opts := by
  rcases step_cases s with hs | hs | hs | hs | ⟨h1, h2, h3, h4⟩
  · subst hs; rw [runStep_login]; exact login_opts env σ
  · exact absurd hs h
  · subst hs; rw [runStep_build]; exact buildArchs_opts env σ
  · subst hs; rw [runStep_push]; exact push_opts env σ
  · rw [runStep_other env s σ h1 h2 h3 h4]

theorem executeSteps_opts (env : Env) :
    ∀ (l : List String) (σ : State), "manifest" ∉ l → (executeSteps env l σ).2.opts = σ.opts
  | [], σ, _ => rfl
  | s :: l, σ, h => by
    have hs : s ≠ "manifest" := fun he => h (by simp [he])
    have hl : "manifest" ∉ l := fun hm => h (List.mem_cons_of_mem s hm)
    have h1 := runStep_opts env s σ hs
    rw [executeSteps]
    rcases hr : runStep env s σ with ⟨_ | e, σ₁⟩
    · rw [hr] at h1
      simp only at h1 ⊢
      rw [executeSteps_opts env l σ₁ hl, h1]
    · rw [hr] at h1
      exact h1

theorem runStep_trace (env : Env) (s : String) (σ : State) :
    ∃ more, (runStep env s σ).2.trace = σ.trace ++ more := by
  rcases step_cases s with hs | hs | hs | hs | ⟨h1, h2, h3, h4⟩
  · subst hs
    rw [runStep_login]
    rcases login_state env σ with h | h
    · exact ⟨[], by rw [h]; simp⟩
    · exact ⟨[loginCmd σ.opts], by rw [h]⟩
  · subst hs
    rw [runStep_manifest, createManifest_eq]
    exact ⟨_, rfl⟩
  · subst hs
    rw [runStep_build]
    obtain ⟨k, hk⟩ := buildLoop_state env (buildPath σ.opts) (buildTag σ.opts)
      σ.opts.Architectures σ
    exact ⟨_, by unfold buildArchs; rw [hk]⟩
  · subst hs
    rw [runStep_push, push_eq]
    exact ⟨_, rfl⟩
  · rw [runStep_other env s σ h1 h2 h3 h4]
    exact ⟨[], by simp⟩

theorem executeSteps_trace (env : Env) :
    ∀ (l : List String) (σ : State), ∃ more, (executeSteps env l σ).2.trace = σ.trace ++ more
  | [], σ => ⟨[], by simp [executeSteps]⟩
  | s :: l, σ => by
    obtain ⟨m₁, h1⟩ := runStep_trace env s σ
    rw [executeSteps]
    rcases hr : runStep env s σ with ⟨_ | e, σ₁⟩
    · rw [hr] at h1
      simp only at h1 ⊢
      obtain ⟨m₂, h2⟩ := executeSteps_trace env l σ₁
      exact ⟨m₁ ++ m₂, by rw [h2, h1, List.append_assoc]⟩
    · rw [hr] at h1
      exact ⟨m₁, h1⟩

/-- The invocations of a build or push step on a configuration whose manifest
name is empty all pass the empty name. -/
theorem runStep_empty_name (env : Env) (s : String) (σ : State)
    (hm : σ.opts.ManifestName = "") (hs : s = "build" ∨ s = "push") :
    ∃ cmds, (runStep env s σ).2.trace = σ.trace ++ cmds ∧ ∀ c ∈ cmds, passesEmptyName c := by
  rcases hs with hs | hs
  · subst hs
    rw [runStep_build]
    obtain ⟨k, hk⟩ := buildLoop_state env (buildPath σ.opts) (buildTag σ.opts)
      σ.opts.Architectures σ
    refine ⟨_, by unfold buildArchs; rw [hk], ?_⟩
    intro c hc
    obtain ⟨a, _, rfl⟩ := List.mem_map.1 hc
    left
    by_cases hg : stringsContains env.GOARCH a = true
    · exact ⟨"--arch" :: a :: "--tag" :: buildTag σ.opts :: "--log-level" :: σ.opts.LogLevel ::
        (σ.opts.Flags ++ (σ.opts.BuildArgs ++ [buildPath σ.opts])),
        by simp [buildCmd, buildArgs, hg, hm]⟩
    · exact ⟨"--arch" :: a :: "--tag" :: buildTag σ.opts :: "--log-level" :: σ.opts.LogLevel ::
        (σ.opts.Flags ++ (σ.opts.BuildArgs ++ ["-f", buildPath σ.opts])),
        by simp [buildCmd, buildArgs, hg, hm]⟩
  · subst hs
    rw [runStep_push, push_eq]
    refine ⟨[pushCmd σ.opts], rfl, ?_⟩
    intro c hc
    rw [List.mem_singleton] at hc
    subst hc
    right
    exact ⟨σ.opts.LogLevel, pushPath σ.opts :: (σ.opts.Flags ++ σ.opts.PushArgs),
      by simp [pushCmd, hm]⟩

/-- C10: `login`, `buildArchs` and `push` leave the configuration unchanged;
only `createManifest` applies the default of the manifest name. So when
ManifestName is empty and a "build" or "push" step is reached with no
"manifest" step before it, every invocation of that step passes the empty
string as the manifest name, for any environment and hence any value of
CI_COMMIT_SHA; these invocations follow, in the invocations of the whole run,
those of the earlier steps. -/
theorem manifest_default_only_in_createManifest (env : Env) (σ : State) :
    (login env σ).2.opts = σ.opts ∧ (buildArchs env σ).2.opts = σ.opts ∧
    (push env σ).2.opts = σ.opts ∧
    ∀ (pre : List String) (s : String) (post : List String) (σ₀ σ₁ : State),
      σ.opts.ManifestName = "" → σ.opts.Steps = pre ++ s :: post → "manifest" ∉ pre →
      (s = "build" ∨ s = "push") →
      initWorkspace env σ = (none, σ₀) → executeSteps env pre σ₀ = (none, σ₁) →
      ∃ cmds more,
        (runStep env s σ₁).2.trace = σ₁.trace ++ cmds ∧
        (execute env σ).2.trace = σ₁.trace ++ cmds ++ more ∧
        ∀ c ∈ cmds, passesEmptyName c := by
  refine ⟨login_opts env σ, buildArchs_opts env σ, push_opts env σ, ?_⟩
  intro pre s post σ₀ σ₁ hm hsteps hpre hs hinit hrun
  have ho := (initWorkspace_opts env σ).1
  rw [hinit] at ho
  simp only at ho
  have h1 := executeSteps_opts env pre σ₀ hpre
  rw [hrun] at h1
  simp only at h1
  have hm1 : σ₁.opts.ManifestName = "" := by rw [h1, ho, hm]
  obtain ⟨cmds, hc, hall⟩ := runStep_empty_name env s σ₁ hm1 hs
  have hex : execute env σ =
      match runStep env s σ₁ with
      | (some err, σ₂) => (some err, σ₂)
      | (none, σ₂) => executeSteps env post σ₂ := by
    rw [execute_of_init env σ σ₀ hinit, hsteps, executeSteps_append, hrun]
    simp only [executeSteps]
  rcases hr : runStep env s σ₁ with ⟨_ | e, σ₂⟩
  · rw [hr] at hex hc
    simp only at hex hc
    obtain ⟨more, hmore⟩ := executeSteps_trace env post σ₂
    exact ⟨cmds, more, hc, by rw [hex, hmore, hc], hall⟩
  · rw [hr] at hex hc
    simp only at hex hc
    exact ⟨cmds, [], hc, by rw [hex]; simp [hc], hall⟩

/-! ## The theorems at sample inputs -/

/-- The preconditions of `login` at sample configurations without a password,
without a registry, and with all three fields. -/
theorem login_requires_credentials_witness :
    login envOk (initial optsNoPassword) =
      (some "username and password are required", initial optsNoPassword) ∧
    (∃ msg, login envFail (initial optsNoRegistry) = (some msg, initial optsNoRegistry)) ∧
    login envOk (initial optsNoRegistry) =
      (some "registry is required", initial optsNoRegistry) ∧
    (optsSample.Username ≠ "" ∧ optsSample.Password ≠ "" ∧ optsSample.Registry ≠ "") ∧
    (login envOk (initial optsSample)).2.trace = [] ++ [loginCmd optsSample] :=
  ⟨(login_requires_credentials envOk (initial optsNoPassword)).1 (Or.inr rfl),
    (login_requires_credentials envFail (initial optsNoRegistry)).2.1 rfl,
    (login_requires_credentials envOk (initial optsNoRegistry)).2.2.1
      (by decide) (by decide) rfl,
    (login_requires_credentials envOk (initial optsSample)).2.2.2.1 (by decide),
    (login_requires_credentials envOk (initial optsSample)).2.2.2.2
      (by decide) (by decide) (by decide)⟩

/-- A run in which creating the manifest fails: login has run, build and push
have not. -/
theorem execute_stops_at_first_failure_witness :
    execute envManifestFails (initial optsSample) =
      (some "creating manifest failed: exit status 125",
        (runStep envManifestFails "manifest"
          (executeSteps envManifestFails ["login"]
            (initWorkspace envManifestFails (initial optsSample)).2).2).2) ∧
    (execute envManifestFails (initial optsSample)).2.trace =
      (runStep envManifestFails "manifest"
        (executeSteps envManifestFails ["login"]
          (initWorkspace envManifestFails (initial optsSample)).2).2).2.trace :=
  execute_stops_at_first_failure envManifestFails (initial optsSample)
    (initWorkspace envManifestFails (initial optsSample)).2
    (executeSteps envManifestFails ["login"]
      (initWorkspace envManifestFails (initial optsSample)).2).2
    (runStep envManifestFails "manifest"
      (executeSteps envManifestFails ["login"]
        (initWorkspace envManifestFails (initial optsSample)).2).2).2
    ["login"] "manifest" ["build", "push"] "creating manifest failed: exit status 125"
    rfl (by decide) (by decide) (by decide)

/-- A successful run of the step list push, login. -/
theorem execute_in_list_order_witness :
    (execute envOk (initial optsPushLogin)).1 = none ∧
    (execute envOk (initial optsPushLogin)).2.trace =
      [] ++ [pushCmd optsPushLogin, loginCmd optsPushLogin] :=
  ⟨by decide, (execute_in_list_order envOk (initial optsPushLogin) (by decide)).2 rfl⟩

/-- The manifest name at a sample configuration without a name and at one with
a name. -/
theorem createManifest_name_witness :
    (createManifest envOk (initial optsSample)).2.opts.ManifestName = "abc123" ∧
    optsNamed.ManifestName ≠ "" ∧
    ∀ c : String,
      createManifest { envOk with CI_COMMIT_SHA := c } (initial optsNamed) =
        createManifest envOk (initial optsNamed) :=
  ⟨by rw [(createManifest_name envOk (initial optsSample)).1 rfl]; rfl,
    by decide,
    ((createManifest_name envOk (initial optsNamed)).2 (by decide)).2⟩

/-- The flag at the sample configuration, which supplies no `-f` itself. -/
theorem buildArchs_force_flag_witness :
    optsSample.Architectures = ["amd64", "arm64"] ∧ envOk.GOARCH = "amd64" ∧
    "-f" ∈ buildArgs envOk optsSample (buildPath optsSample) (buildTag optsSample) "arm64" ∧
    "-f" ∉ buildArgs envOk optsSample (buildPath optsSample) (buildTag optsSample) "amd64" :=
  ⟨rfl, rfl, (buildArchs_force_flag envOk (initial optsSample) rfl rfl).2.2.1,
    fun h => absurd ((buildArchs_force_flag envOk (initial optsSample) rfl rfl).2.2.2.2.1 h)
      (by decide)⟩

/-- Two sample configurations that differ in the password alone. -/
theorem login_password_on_stdin_witness :
    (login envOk (initial optsSample)).2.trace.map Cmd.Stdin = [some "secret"] ∧
    ((login envFail (initial optsOtherPassword)).2.trace).map Cmd.Args =
      ((login envOk (initial optsSample)).2.trace).map Cmd.Args :=
  ⟨by rw [(login_password_on_stdin envOk (initial optsSample)
      (by decide) (by decide) (by decide)).1]; rfl,
    (login_password_on_stdin envOk (initial optsSample)
      (by decide) (by decide) (by decide)).2 envFail "hunter2" (by decide)⟩

/-- Sample step lists of unknown names only and of known and unknown names. -/
theorem unknown_steps_are_noops_witness :
    (execute envOk (initial optsUnknown)).1 = none ∧
    (execute envOk (initial optsUnknown)).2.trace = [] ∧
    (execute envOk (setSteps (optsMixed.Steps.filter recognized) (initial optsMixed))).2.trace =
      (execute envOk (initial optsMixed)).2.trace :=
  ⟨by rw [((unknown_steps_are_noops envOk (initial optsUnknown)).2.2.2 (by decide)
      (initWorkspace envOk (initial optsUnknown)).2 (by decide)).1],
    ((unknown_steps_are_noops envOk (initial optsUnknown)).2.2.2 (by decide)
      (initWorkspace envOk (initial optsUnknown)).2 (by decide)).2,
    (unknown_steps_are_noops envOk (initial optsMixed)).2.1⟩

/-- A sample run of the step list build, push with an empty manifest name. -/
theorem manifest_default_only_in_createManifest_witness :
    optsBuildPush.ManifestName = "" ∧ envOk.CI_COMMIT_SHA = "abc123" ∧
    ∃ cmds more,
      (runStep envOk "push"
        (executeSteps envOk ["build"] (initWorkspace envOk (initial optsBuildPush)).2).2).2.trace =
        (executeSteps envOk ["build"]
          (initWorkspace envOk (initial optsBuildPush)).2).2.trace ++ cmds ∧
      (execute envOk (initial optsBuildPush)).2.trace =
        (executeSteps envOk ["build"]
          (initWorkspace envOk (initial optsBuildPush)).2).2.trace ++ cmds ++ more ∧
      ∀ c ∈ cmds, passesEmptyName c :=
  ⟨rfl, rfl,
    (manifest_default_only_in_createManifest envOk (initial optsBuildPush)).2.2.2
      ["build"] "push" []
      (initWorkspace envOk (initial optsBuildPush)).2
      (executeSteps envOk ["build"] (initWorkspace envOk (initial optsBuildPush)).2).2
      rfl rfl (by decide) (Or.inr rfl) (by decide) (by decide)⟩

/-- A build in which the second architecture fails, and one in which both
succeed. -/
theorem buildArchs_invocations_witness :
    (buildArchs envArmFails (initial optsSample)).1 =
      some "building arch arm64 failed: exit status 125" ∧
    (buildArchs envArmFails (initial optsSample)).2.trace.map Cmd.Args =
      [["build", "--manifest", "", "--arch", "amd64", "--tag", "reg.io/org/app:latest",
          "--log-level", "info", "/woodpecker/src/Dockerfile"],
        ["build", "--manifest", "", "--arch", "arm64", "--tag", "reg.io/org/app:latest",
          "--log-level", "info", "-f", "/woodpecker/src/Dockerfile"]] ∧
    (buildArchs envOk (initial optsSample)).1 = none :=
  ⟨by
      rw [(buildArchs_invocations envArmFails (initial optsSample)).1
        ["amd64"] "arm64" [] "exit status 125" rfl
        (by
          intro p b q h
          cases p with
          | nil =>
            injection h with h1 h2
            subst h1
            decide
          | cons c p => simp at h)
        (by decide)]
      decide,
    by decide,
    by
      rw [(buildArchs_invocations envOk (initial optsSample)).2 (fun _ _ _ _ => rfl)]⟩

end Buildah
